import Mathlib

/-!
# Verification of the joke-teller speech client and controller

A shallow embedding of `src/js/script.js`: the `VoiceRSS` speech-client
object (validation, codec selection, request construction, response
handling) and the joke-button controller (`handleJokeButtonClick`).

Modelling conventions:
* A JS string field that may be `undefined` is modelled as a `String`,
  with `""` standing for both the absent and the empty value — the code
  only ever tests these fields for truthiness (`!s.key`, `s.c && ...`,
  `s.f || ""`), and `undefined` and `""` are equally falsy.
* The rate `r` is a JS number, modelled as `Int`; `settings.r || ""`
  coalesces the falsy `0` to `""` and otherwise stringifies the number
  (decimal notation for integral values).
* `audio.canPlayType(mime).replace("no","")` is truthy exactly when the
  environment supports the MIME type (`canPlayType` returns `""`,
  `"maybe"` or `"probably"`, none of which contains `"no"`), so the
  capability probe is a function `probe : String → Bool` on MIME types.
* `String.prototype.toLowerCase` is modelled by ASCII case folding
  (`Char.toLower` on every character), which agrees with JS on the
  ASCII codec names the code compares against.
* Network and DOM effects are reified: `speech` returns either the
  validation error it throws or the list of network actions it issues,
  and the `onreadystatechange` handler is a pure transformer of an
  explicit DOM state.
-/

set_option autoImplicit false

namespace JokeTeller

/-- The `settings` object passed to `VoiceRSS.speech`. -/
structure Settings where
  key : String
  src : String
  hl : String
  r : Int
  c : String
  f : String
  ssml : String
  deriving Repr, DecidableEq

/-- JS `a || b` on strings: `""` (and the absent field it also models) is falsy. -/
def jsOr (a b : String) : String := if a = "" then b else a

/-- JS `toLowerCase`, modelled as ASCII case folding of every character. -/
def jsToLower (s : String) : String := String.mk (s.data.map Char.toLower)

/-- A decimal digit as a character; inputs are always `< 10`. -/
def digitChar (d : Nat) : Char :=
  match d with
  | 0 => '0' | 1 => '1' | 2 => '2' | 3 => '3' | 4 => '4'
  | 5 => '5' | 6 => '6' | 7 => '7' | 8 => '8' | 9 => '9'
  | _ => '0'

/-- Decimal digits of `n`, most significant first, in front of `acc`. -/
def natDigits (n : Nat) (acc : List Char) : List Char :=
  if n < 10 then digitChar n :: acc
  else natDigits (n / 10) (digitChar (n % 10) :: acc)
termination_by n
decreasing_by exact Nat.div_lt_self (by omega) (by omega)

/-- JS stringification of an integral number: decimal notation. -/
def intDecimal (i : Int) : String :=
  if i < 0 then "-" ++ String.mk (natDigits i.natAbs []) else String.mk (natDigits i.natAbs [])

/-- JS `settings.r || ""` followed by stringification: the falsy rate `0`
becomes `""`; any other integral rate prints in decimal. -/
def rateString (r : Int) : String := if r = 0 then "" else intDecimal r

/-- The characters `encodeURIComponent` leaves as-is: ASCII letters and
digits and `- _ . ! ~ * ' ( )` (code points 45, 95, 46, 33, 126, 42, 39,
40, 41). -/
def isUnreservedChar (c : Char) : Bool :=
  let n := c.toNat
  (65 ≤ n && n ≤ 90) || (97 ≤ n && n ≤ 122) || (48 ≤ n && n ≤ 57) ||
    n = 45 || n = 95 || n = 46 || n = 33 || n = 126 || n = 42 || n = 39 ||
    n = 40 || n = 41

/-- A hexadecimal digit as an uppercase character; inputs are always `< 16`. -/
def hexChar (d : Nat) : Char :=
  match d with
  | 0 => '0' | 1 => '1' | 2 => '2' | 3 => '3' | 4 => '4'
  | 5 => '5' | 6 => '6' | 7 => '7' | 8 => '8' | 9 => '9'
  | 10 => 'A' | 11 => 'B' | 12 => 'C' | 13 => 'D' | 14 => 'E' | 15 => 'F'
  | _ => '0'

/-- The UTF-8 bytes of a character, as natural numbers below 256. -/
def utf8Bytes (c : Char) : List Nat :=
  let n := c.toNat
  if n < 128 then [n]
  else if n < 2048 then [192 + n / 64, 128 + n % 64]
  else if n < 65536 then [224 + n / 4096, 128 + n / 64 % 64, 128 + n % 64]
  else [240 + n / 262144, 128 + n / 4096 % 64, 128 + n / 64 % 64, 128 + n % 64]

/-- What `encodeURIComponent` emits for one character: the character
itself when unreserved, otherwise `%XX` for each UTF-8 byte. -/
def encodeCharList (c : Char) : List Char :=
  if isUnreservedChar c then [c]
  else (utf8Bytes c).flatMap fun b => ['%', hexChar (b / 16), hexChar (b % 16)]

/-- JS `encodeURIComponent`. -/
def encodeURIComponent (s : String) : String :=
  String.mk (s.data.flatMap encodeCharList)

/-! ## The VoiceRSS speech client (`src/js/script.js`, `VoiceRSS`) -/

/-- The errors `VoiceRSS._validate` can throw.  The first three are the
missing-required-field (`InvalidRequest`-style) errors; the last is the
`UnsupportedCodec`-style error. -/
inductive VError where
  | keyUndefined
  | textUndefined
  | langUndefined
  | codecUnsupported (c : String)
  deriving Repr, DecidableEq

/-- The message of the `Error` the source throws. -/
def VError.message : VError → String
  | .keyUndefined => "The API key is undefined"
  | .textUndefined => "The text is undefined"
  | .langUndefined => "The language is undefined"
  | .codecUnsupported c => "The browser does not support the audio codec " ++ c

/-- Whether an error is one of the missing-required-field errors. -/
def VError.isInvalidRequest : VError → Bool
  | .keyUndefined | .textUndefined | .langUndefined => true
  | .codecUnsupported _ => false

/-- Whether an error is the unsupported-codec error. -/
def VError.isUnsupportedCodec : VError → Bool
  | .codecUnsupported _ => true
  | _ => false

/-- The `switch (settings.c.toLowerCase())` capability check in
`VoiceRSS._validate`: probe the matching MIME type, and report `false`
outright for a codec outside the enumeration (the `default` branch). -/
def codecSupported (probe : String → Bool) (c : String) : Bool :=
  match jsToLower c with
  | "mp3" => probe "audio/mpeg"
  | "wav" => probe "audio/wav"
  | "aac" => probe "audio/aac"
  | "ogg" => probe "audio/ogg"
  | "caf" => probe "audio/x-caf"
  | _ => false

/-- `VoiceRSS._validate`.  The `!settings` guard cannot fire in the model
(a `Settings` value is always present); the remaining checks are in
source order. -/
def validate (probe : String → Bool) (s : Settings) : Except VError Unit :=
  if s.key = "" then .error .keyUndefined
  else if s.src = "" then .error .textUndefined
  else if s.hl = "" then .error .langUndefined
  else if s.c ≠ "" ∧ jsToLower s.c ≠ "auto" then
    if codecSupported probe s.c then .ok () else .error (.codecUnsupported s.c)
  else .ok ()

/-- `VoiceRSS._detectCodec`: probe the MIME types in the fixed source
order and return the first supported codec name, or `""`. -/
def detectCodec (probe : String → Bool) : String :=
  if probe "audio/mpeg" then "mp3"
  else if probe "audio/wav" then "wav"
  else if probe "audio/aac" then "aac"
  else if probe "audio/ogg" then "ogg"
  else if probe "audio/x-caf" then "caf"
  else ""

/-- The `codec` local of `VoiceRSS._buildRequest`: the explicit codec
when one is given and is not `"auto"`, otherwise the detected one. -/
def requestCodec (probe : String → Bool) (s : Settings) : String :=
  if s.c ≠ "" ∧ jsToLower s.c ≠ "auto" then s.c else detectCodec probe

/-- `VoiceRSS._buildRequest`: the URL-encoded form body, one template
string in the source. -/
def buildRequest (probe : String → Bool) (s : Settings) : String :=
  "key=" ++ encodeURIComponent (jsOr s.key "")
    ++ "&src=" ++ encodeURIComponent (jsOr s.src "")
    ++ "&hl=" ++ encodeURIComponent (jsOr s.hl "")
    ++ "&r=" ++ encodeURIComponent (rateString s.r)
    ++ "&c=" ++ encodeURIComponent (jsOr (requestCodec probe s) "")
    ++ "&f=" ++ encodeURIComponent (jsOr s.f "")
    ++ "&ssml=" ++ encodeURIComponent (jsOr s.ssml "")
    ++ "&b64=true"

/-- A network action the client performs. -/
inductive Action where
  | post (url : String) (contentType : String) (body : String)
  deriving Repr, DecidableEq

/-- The speech API endpoint. -/
def apiUrl : String := "https://api.voicerss.org/"

/-- The request content type set by `VoiceRSS._request`. -/
def requestContentType : String := "application/x-www-form-urlencoded; charset=UTF-8"

/-- `VoiceRSS.speech`: validate, then build the body and issue the one
POST (`VoiceRSS._request`).  An `.error` result is the exception thrown
before any network action; an `.ok` result lists the network actions
issued, in order. -/
def speech (probe : String → Bool) (s : Settings) : Except VError (List Action) :=
  match validate probe s with
  | .error e => .error e
  | .ok _ => .ok [.post apiUrl requestContentType (buildRequest probe s)]

/-! ## The response handler and the joke controller -/

/-- The observable page state: the joke text surface, the audio element
(source and number of `play()` invocations), the button, and the
user-visible alerts and console log, in order of emission. -/
structure Dom where
  jokeText : String
  audioSrc : Option String
  playCount : Nat
  buttonDisabled : Bool
  alerts : List String
  logs : List String
  deriving Repr, DecidableEq

/-- `xhr.responseText.indexOf("ERROR") === 0`. -/
def startsWithERROR (s : String) : Bool :=
  s.data.take 5 = "ERROR".data

/-- How one run of the `onreadystatechange` handler ended. -/
inductive RespOutcome where
  | pending
  | threw (msg : String)
  | played
  | noAudioElement
  | httpFailed (status : Nat)
  deriving Repr, DecidableEq

/-- The `onreadystatechange` handler installed by `VoiceRSS._request`,
as a pure transformer of the page state.  `audioPresent` is whether
`document.getElementById("audio")` finds the element.  A `.threw`
outcome is the `throw` on an `"ERROR"`-prefixed body, which escapes
into the event loop and reaches no caller. -/
def onResponse (readyState status : Nat) (responseText : String)
    (audioPresent : Bool) (d : Dom) : Dom × RespOutcome :=
  if readyState = 4 then
    if status = 200 then
      if startsWithERROR responseText then (d, .threw responseText)
      else if audioPresent then
        ({ d with audioSrc := some responseText, playCount := d.playCount + 1 }, .played)
      else ({ d with logs := d.logs ++ ["Audio element not found in the DOM."] }, .noAudioElement)
    else
      ({ d with logs := d.logs ++ ["HTTP request failed with status " ++ toString status] },
       .httpFailed status)
  else (d, .pending)

/-- The settings literal `handleJokeButtonClick` passes to
`VoiceRSS.speech` (no `ssml` field, so it is absent). -/
def jokeSettings (joke : String) : Settings :=
  { key := "YOUR API", src := joke, hl := "en-us", r := 0, c := "mp3"
    f := "44khz_16bit_stereo", ssml := "" }

/-- The alert shown by the controller's `catch` block. -/
def failAlert : String := "Sorry, we couldn't fetch a joke. Please try again later."

/-- `handleJokeButtonClick`.  `fetched` is the settled outcome of
`fetchJoke()` (the resolved joke text, or the message of the rejection).
The `try` block disables the button, shows the loading text, awaits the
fetch, displays the joke and calls `VoiceRSS.speech` synchronously; a
throw from either lands in the `catch` block (log, alert, clear text);
the `finally` block re-enables the button on every path.  The returned
list is the network actions the speech client issued. -/
def handleJokeButtonClick (probe : String → Bool) (fetched : Except String String)
    (d : Dom) : Dom × List Action :=
  let d1 := { d with buttonDisabled := true, jokeText := "Loading joke..." }
  match fetched with
  | .error msg =>
    ({ d1 with logs := d1.logs ++ ["Error processing the joke: " ++ msg]
               alerts := d1.alerts ++ [failAlert]
               jokeText := ""
               buttonDisabled := false }, [])
  | .ok joke =>
    let d2 := { d1 with jokeText := joke }
    match speech probe (jokeSettings joke) with
    | .error e =>
      ({ d2 with logs := d2.logs ++ ["Error processing the joke: " ++ e.message]
                 alerts := d2.alerts ++ [failAlert]
                 jokeText := ""
                 buttonDisabled := false }, [])
    | .ok acts =>
      ({ d2 with buttonDisabled := false }, acts)

/-! ## Reading a field back out of a form body

A form body is split at `&` into `name=value` parts; values are
percent-encoded, so `&` and `=` never occur inside them and the split
recovers exactly the fields that were serialized. -/

/-- Split a character list at every `&`. -/
def splitAmp : List Char → List (List Char)
  | [] => [[]]
  | c :: cs =>
    if c = '&' then [] :: splitAmp cs
    else
      match splitAmp cs with
      | [] => [[c]]
      | p :: ps => (c :: p) :: ps

/-- Strip `name` followed by `=` from the front of a part, returning the
value characters. -/
def stripKey : List Char → List Char → Option (List Char)
  | [], part =>
    match part with
    | c :: rest => if c = '=' then some rest else none
    | [] => none
  | n :: ns, part =>
    match part with
    | p :: ps => if p = n then stripKey ns ps else none
    | [] => none

/-- The value of the first part matching `name=`. -/
def findField (name : List Char) : List (List Char) → Option String
  | [] => none
  | p :: ps =>
    match stripKey name p with
    | some v => some (String.mk v)
    | none => findField name ps

/-- The value of field `name` in a form body, if present. -/
def fieldOf (name : String) (body : String) : Option String :=
  findField name.data (splitAmp body.data)

/-! ## Definitions taken from the spec's words, for the refinement claims -/

/-- Modelled from the spec: the fixed codec priority order
mp3, wav, aac, ogg, caf. -/
def codecPriority : List String := ["mp3", "wav", "aac", "ogg", "caf"]

/-- The MIME type probed for each codec name. -/
def codecMime : String → String
  | "mp3" => "audio/mpeg"
  | "wav" => "audio/wav"
  | "aac" => "audio/aac"
  | "ogg" => "audio/ogg"
  | "caf" => "audio/x-caf"
  | _ => ""

/-- Modelled from the spec: the first codec in the priority order that
the probe reports as supported, or `""` if none is. -/
def specAutoCodec (probe : String → Bool) : String :=
  (codecPriority.find? fun c => probe (codecMime c)).getD ""

/-- Join form-body parts with `&`. -/
def joinAmp : List String → String
  | [] => ""
  | [x] => x
  | x :: y :: xs => x ++ "&" ++ joinAmp (y :: xs)

/-- Modelled from the spec (§4.1 Request construction): the field names
key, src, hl, r, c, f, ssml in that fixed order, each paired with its
value, missing optional fields serializing as empty strings. -/
def specFieldValues (probe : String → Bool) (s : Settings) : List (String × String) :=
  [("key", s.key), ("src", s.src), ("hl", s.hl), ("r", rateString s.r),
   ("c", requestCodec probe s), ("f", s.f), ("ssml", s.ssml)]

/-- Modelled from the spec: a single URL-encoded form body carrying the
seven fields in order, every value percent-encoded, plus the fixed flag
`b64=true` requesting base64-embeddable audio. -/
def specBuildRequest (probe : String → Bool) (s : Settings) : String :=
  joinAmp (((specFieldValues probe s).map fun kv => kv.1 ++ "=" ++ encodeURIComponent kv.2)
    ++ ["b64=true"])

/-! ## Percent-encoded values contain no separator -/

theorem hexChar_ne_amp (d : Nat) : hexChar d ≠ '&' := by
  unfold hexChar
  split <;> decide

theorem amp_not_mem_encodeCharList (c : Char) : '&' ∉ encodeCharList c := by
  unfold encodeCharList
  split
  · next hres =>
    intro hm
    rw [List.mem_singleton] at hm
    rw [← hm] at hres
    exact absurd hres (by decide)
  · intro hm
    rw [List.mem_flatMap] at hm
    obtain ⟨b, _, hb⟩ := hm
    simp only [List.mem_cons, List.not_mem_nil, or_false] at hb
    rcases hb with h | h | h
    · exact absurd h (by decide)
    · exact hexChar_ne_amp _ h.symm
    · exact hexChar_ne_amp _ h.symm

theorem amp_not_mem_encode (v : String) : '&' ∉ (encodeURIComponent v).data := by
  unfold encodeURIComponent
  intro hm
  rw [List.mem_flatMap] at hm
  obtain ⟨c, _, hc⟩ := hm
  exact amp_not_mem_encodeCharList c hc

theorem amp_not_mem_part {n : List Char} (hn : '&' ∉ n) (v : String) :
    '&' ∉ n ++ (encodeURIComponent v).data := by
  intro hm
  rcases List.mem_append.1 hm with h | h
  · exact hn h
  · exact amp_not_mem_encode v h

/-! ## Splitting a body at `&` recovers the serialized parts -/

theorem splitAmp_no_amp : ∀ {l : List Char}, '&' ∉ l → splitAmp l = [l]
  | [], _ => rfl
  | c :: cs, h => by
    have hc : ¬ c = '&' := fun e => h (e ▸ List.mem_cons_self c cs)
    have hcs : '&' ∉ cs := fun m => h (List.mem_cons_of_mem _ m)
    simp only [splitAmp, if_neg hc, splitAmp_no_amp hcs]

theorem splitAmp_sep : ∀ {l : List Char} (r : List Char), '&' ∉ l →
    splitAmp (l ++ '&' :: r) = l :: splitAmp r
  | [], r, _ => by simp [splitAmp]
  | c :: cs, r, h => by
    have hc : ¬ c = '&' := fun e => h (e ▸ List.mem_cons_self c cs)
    have hcs : '&' ∉ cs := fun m => h (List.mem_cons_of_mem _ m)
    simp only [List.cons_append, splitAmp, List.append_eq, if_neg hc, splitAmp_sep r hcs]

theorem buildRequest_parts (probe : String → Bool) (s : Settings) :
    splitAmp (buildRequest probe s).data =
      ["key=".data ++ (encodeURIComponent (jsOr s.key "")).data,
       "src=".data ++ (encodeURIComponent (jsOr s.src "")).data,
       "hl=".data ++ (encodeURIComponent (jsOr s.hl "")).data,
       "r=".data ++ (encodeURIComponent (rateString s.r)).data,
       "c=".data ++ (encodeURIComponent (jsOr (requestCodec probe s) "")).data,
       "f=".data ++ (encodeURIComponent (jsOr s.f "")).data,
       "ssml=".data ++ (encodeURIComponent (jsOr s.ssml "")).data,
       "b64=true".data] := by
  have hdata : (buildRequest probe s).data =
      ("key=".data ++ (encodeURIComponent (jsOr s.key "")).data) ++ '&' ::
      (("src=".data ++ (encodeURIComponent (jsOr s.src "")).data) ++ '&' ::
      (("hl=".data ++ (encodeURIComponent (jsOr s.hl "")).data) ++ '&' ::
      (("r=".data ++ (encodeURIComponent (rateString s.r)).data) ++ '&' ::
      (("c=".data ++ (encodeURIComponent (jsOr (requestCodec probe s) "")).data) ++ '&' ::
      (("f=".data ++ (encodeURIComponent (jsOr s.f "")).data) ++ '&' ::
      (("ssml=".data ++ (encodeURIComponent (jsOr s.ssml "")).data) ++ '&' ::
      "b64=true".data)))))) := by
    simp only [buildRequest, String.data_append,
      show ("&src=").data = '&' :: "src=".data from rfl,
      show ("&hl=").data = '&' :: "hl=".data from rfl,
      show ("&r=").data = '&' :: "r=".data from rfl,
      show ("&c=").data = '&' :: "c=".data from rfl,
      show ("&f=").data = '&' :: "f=".data from rfl,
      show ("&ssml=").data = '&' :: "ssml=".data from rfl,
      show ("&b64=true").data = '&' :: "b64=true".data from rfl,
      List.cons_append, List.append_assoc]
  rw [hdata,
    splitAmp_sep _ (amp_not_mem_part (by decide) _),
    splitAmp_sep _ (amp_not_mem_part (by decide) _),
    splitAmp_sep _ (amp_not_mem_part (by decide) _),
    splitAmp_sep _ (amp_not_mem_part (by decide) _),
    splitAmp_sep _ (amp_not_mem_part (by decide) _),
    splitAmp_sep _ (amp_not_mem_part (by decide) _),
    splitAmp_sep _ (amp_not_mem_part (by decide) _),
    splitAmp_no_amp (by decide)]

theorem fieldOf_c_buildRequest (probe : String → Bool) (s : Settings) :
    fieldOf "c" (buildRequest probe s) =
      some (encodeURIComponent (jsOr (requestCodec probe s) "")) := by
  unfold fieldOf
  rw [buildRequest_parts]
  rfl

theorem fieldOf_r_buildRequest (probe : String → Bool) (s : Settings) :
    fieldOf "r" (buildRequest probe s) = some (encodeURIComponent (rateString s.r)) := by
  unfold fieldOf
  rw [buildRequest_parts]
  rfl

/-! ## Percent-encoding is the identity on unreserved strings -/

theorem encodeCharList_unreserved {c : Char} (h : isUnreservedChar c = true) :
    encodeCharList c = [c] := by
  unfold encodeCharList
  rw [if_pos h]

theorem flatMap_encode_id : ∀ {l : List Char}, (∀ c ∈ l, isUnreservedChar c = true) →
    l.flatMap encodeCharList = l
  | [], _ => rfl
  | c :: cs, h => by
    rw [List.flatMap_cons, encodeCharList_unreserved (h c (List.mem_cons_self c cs)),
      flatMap_encode_id (fun d hd => h d (List.mem_cons_of_mem _ hd))]
    rfl

theorem encode_eq_self {s : String} (h : ∀ c ∈ s.data, isUnreservedChar c = true) :
    encodeURIComponent s = s :=
  congrArg String.mk (flatMap_encode_id h)

theorem jsOr_empty (x : String) : jsOr x "" = x := by
  unfold jsOr
  split
  · next h => exact h.symm
  · rfl

/-- ASCII case folding cannot turn a reserved character into an
unreserved one. -/
theorem unreserved_of_toLower (c : Char) (h : isUnreservedChar c.toLower = true) :
    isUnreservedChar c = true := by
  by_cases hc : 65 ≤ c.toNat ∧ c.toNat ≤ 90
  · simp only [isUnreservedChar, Bool.or_eq_true, Bool.and_eq_true, decide_eq_true_eq]
    omega
  · have e : c.toLower = c := by
      unfold Char.toLower
      rw [if_neg]
      exact fun h2 => hc ⟨h2.1, h2.2⟩
    rwa [e] at h

theorem unreserved_of_jsToLower {s t : String} (e : jsToLower s = t)
    (ht : ∀ c ∈ t.data, isUnreservedChar c = true) :
    ∀ c ∈ s.data, isUnreservedChar c = true := by
  intro c hc
  apply unreserved_of_toLower
  apply ht
  rw [← e]
  exact List.mem_map_of_mem _ hc

theorem codecSupported_cases {probe : String → Bool} {c : String}
    (h : codecSupported probe c = true) :
    jsToLower c = "mp3" ∨ jsToLower c = "wav" ∨ jsToLower c = "aac" ∨
      jsToLower c = "ogg" ∨ jsToLower c = "caf" := by
  unfold codecSupported at h
  split at h
  · exact Or.inl (by assumption)
  · exact Or.inr (Or.inl (by assumption))
  · exact Or.inr (Or.inr (Or.inl (by assumption)))
  · exact Or.inr (Or.inr (Or.inr (Or.inl (by assumption))))
  · exact Or.inr (Or.inr (Or.inr (Or.inr (by assumption))))
  · exact absurd h (by simp)

/-- A codec name that passes the capability check consists of unreserved
characters only, so encoding it in the body leaves it unchanged. -/
theorem encode_supported_codec {probe : String → Bool} {c : String}
    (h : codecSupported probe c = true) : encodeURIComponent c = c := by
  rcases codecSupported_cases h with e | e | e | e | e <;>
    exact encode_eq_self (unreserved_of_jsToLower e (by decide))

theorem encode_detectCodec (probe : String → Bool) :
    encodeURIComponent (detectCodec probe) = detectCodec probe := by
  unfold detectCodec
  split
  · decide
  all_goals split
  all_goals first
    | decide
    | (split
       all_goals first
         | decide
         | (split
            all_goals first
              | decide
              | (split <;> decide)))

theorem detectCodec_eq_spec (probe : String → Bool) :
    detectCodec probe = specAutoCodec probe := by
  unfold detectCodec specAutoCodec codecPriority
  cases h1 : probe "audio/mpeg" <;> cases h2 : probe "audio/wav" <;>
    cases h3 : probe "audio/aac" <;> cases h4 : probe "audio/ogg" <;>
    cases h5 : probe "audio/x-caf" <;>
    simp [List.find?, codecMime, h1, h2, h3, h4, h5]

/-! ## Validation outcomes -/

theorem validate_ok_auto (probe : String → Bool) {s : Settings}
    (hk : ¬s.key = "") (hs : ¬s.src = "") (hh : ¬s.hl = "")
    (hc : s.c = "" ∨ jsToLower s.c = "auto") : validate probe s = .ok () := by
  unfold validate
  rw [if_neg hk, if_neg hs, if_neg hh, if_neg (fun h => by
    rcases hc with e | e
    · exact h.1 e
    · exact h.2 e)]

theorem validate_ok_explicit (probe : String → Bool) {s : Settings}
    (hk : ¬s.key = "") (hs : ¬s.src = "") (hh : ¬s.hl = "")
    (hc1 : s.c ≠ "") (hc2 : jsToLower s.c ≠ "auto")
    (hsup : codecSupported probe s.c = true) : validate probe s = .ok () := by
  unfold validate
  rw [if_neg hk, if_neg hs, if_neg hh, if_pos ⟨hc1, hc2⟩, if_pos hsup]

theorem speech_error_unsupported (probe : String → Bool) {s : Settings}
    (hk : ¬s.key = "") (hs : ¬s.src = "") (hh : ¬s.hl = "")
    (hc1 : s.c ≠ "") (hc2 : jsToLower s.c ≠ "auto")
    (hsup : codecSupported probe s.c = false) :
    speech probe s = .error (.codecUnsupported s.c) := by
  unfold speech validate
  rw [if_neg hk, if_neg hs, if_neg hh, if_pos ⟨hc1, hc2⟩,
    if_neg (fun h => by rw [hsup] at h; exact Bool.false_ne_true h)]

/-! ## The claims -/

/-- C1: for every settings object in which the key, the text `src` or
the language `hl` is absent or empty (both modelled by `""`), `speech`
throws one of the missing-required-field (`InvalidRequest`-style)
errors during validation: the result is an `.error`, so no request body
is built and no network action is issued. -/
theorem C1_invalid_request (probe : String → Bool) (s : Settings)
    (h : s.key = "" ∨ s.src = "" ∨ s.hl = "") :
    ∃ e, speech probe s = .error e ∧ e.isInvalidRequest = true := by
  unfold speech validate
  by_cases hk : s.key = ""
  · rw [if_pos hk]
    exact ⟨.keyUndefined, rfl, rfl⟩
  · rw [if_neg hk]
    by_cases hs2 : s.src = ""
    · rw [if_pos hs2]
      exact ⟨.textUndefined, rfl, rfl⟩
    · rw [if_neg hs2]
      have hh : s.hl = "" := by tauto
      rw [if_pos hh]
      exact ⟨.langUndefined, rfl, rfl⟩

/-- Witness for C1 at a concrete input: empty API key. -/
theorem C1_invalid_request_witness :
    ∃ e, speech (fun _ => false) ⟨"", "t", "en-us", 0, "", "", ""⟩ = .error e ∧
      e.isInvalidRequest = true :=
  C1_invalid_request (fun _ => false) ⟨"", "t", "en-us", 0, "", "", ""⟩ (Or.inl rfl)

/-- C2 as stated is false: it quantifies over *every* settings object
with an unsupported explicit codec, but when a required field is also
missing, validation throws the missing-field (`InvalidRequest`-style)
error first, not the `UnsupportedCodec` one.  Concretely: empty key,
codec `"mp3"`, a probe supporting nothing — the premise of C2 holds,
yet the thrown error is `keyUndefined`, which is not an
unsupported-codec error. -/
theorem C2_counterexample :
    (⟨"", "t", "en-us", 0, "mp3", "", ""⟩ : Settings).c ≠ "" ∧
    jsToLower (⟨"", "t", "en-us", 0, "mp3", "", ""⟩ : Settings).c ≠ "auto" ∧
    codecSupported (fun _ => false) "mp3" = false ∧
    speech (fun _ => false) ⟨"", "t", "en-us", 0, "mp3", "", ""⟩ =
      .error .keyUndefined ∧
    VError.isUnsupportedCodec .keyUndefined = false :=
  ⟨by decide, by decide, rfl, rfl, rfl⟩

/-- C2 (amended: the required fields key, src, hl are additionally
non-empty): with an explicit codec, not `"auto"` case-insensitively,
that the capability check reports unsupported, `speech` throws the
`UnsupportedCodec`-style error during validation — an `.error` result,
so before any network action — and the check consults only the local
probe. -/
theorem C2_unsupported_codec (probe : String → Bool) (s : Settings)
    (hk : s.key ≠ "") (hs : s.src ≠ "") (hh : s.hl ≠ "")
    (hc1 : s.c ≠ "") (hc2 : jsToLower s.c ≠ "auto")
    (hsup : codecSupported probe s.c = false) :
    speech probe s = .error (.codecUnsupported s.c) :=
  speech_error_unsupported probe hk hs hh hc1 hc2 hsup

/-- Witness for C2 (amended) at a concrete input: codec `"mp3"`, probe
supporting nothing, all required fields present. -/
theorem C2_unsupported_codec_witness :
    speech (fun _ => false) ⟨"k", "t", "en-us", 0, "mp3", "", ""⟩ =
      .error (.codecUnsupported "mp3") :=
  C2_unsupported_codec (fun _ => false) ⟨"k", "t", "en-us", 0, "mp3", "", ""⟩
    (by decide) (by decide) (by decide) (by decide) (by decide) rfl

/-- C3: for a settings object passing required-field validation whose
codec is `"auto"` (case-insensitively) or omitted, `speech` issues the
POST (even when no codec is supported), and the `c` field of its body
is the first codec of the fixed priority order mp3, wav, aac, ogg, caf
that the probe supports, `""` if none (`specAutoCodec`, modelled from
the spec's words). -/
theorem C3_auto_codec (probe : String → Bool) (s : Settings)
    (hk : s.key ≠ "") (hs : s.src ≠ "") (hh : s.hl ≠ "")
    (hc : s.c = "" ∨ jsToLower s.c = "auto") :
    speech probe s = .ok [.post apiUrl requestContentType (buildRequest probe s)] ∧
    fieldOf "c" (buildRequest probe s) = some (specAutoCodec probe) := by
  constructor
  · unfold speech
    rw [validate_ok_auto probe hk hs hh hc]
  · rw [fieldOf_c_buildRequest]
    have hrc : requestCodec probe s = detectCodec probe := by
      unfold requestCodec
      rw [if_neg (fun h => by
        rcases hc with e | e
        · exact h.1 e
        · exact h.2 e)]
    rw [hrc, jsOr_empty, encode_detectCodec, detectCodec_eq_spec]

/-- Witness for C3 at a concrete input: codec `"auto"`, a probe that
supports only wav and caf; the body's `c` field is `"wav"`. -/
theorem C3_auto_codec_witness :
    (speech (fun m => m == "audio/wav" || m == "audio/x-caf")
        ⟨"k", "t", "en-us", 0, "auto", "", ""⟩ =
      .ok [.post apiUrl requestContentType
        (buildRequest (fun m => m == "audio/wav" || m == "audio/x-caf")
          ⟨"k", "t", "en-us", 0, "auto", "", ""⟩)]) ∧
    fieldOf "c" (buildRequest (fun m => m == "audio/wav" || m == "audio/x-caf")
        ⟨"k", "t", "en-us", 0, "auto", "", ""⟩) = some "wav" :=
  C3_auto_codec (fun m => m == "audio/wav" || m == "audio/x-caf")
    ⟨"k", "t", "en-us", 0, "auto", "", ""⟩
    (by decide) (by decide) (by decide) (Or.inr rfl)

/-- C4: for a valid settings object with an explicit codec that passes
the capability check, `speech` issues exactly one POST, and the `c`
field of its body is the requested codec itself (its characters are
unreserved, so percent-encoding leaves it unchanged). -/
theorem C4_explicit_codec (probe : String → Bool) (s : Settings)
    (hk : s.key ≠ "") (hs : s.src ≠ "") (hh : s.hl ≠ "")
    (hc1 : s.c ≠ "") (hc2 : jsToLower s.c ≠ "auto")
    (hsup : codecSupported probe s.c = true) :
    speech probe s = .ok [.post apiUrl requestContentType (buildRequest probe s)] ∧
    fieldOf "c" (buildRequest probe s) = some s.c := by
  constructor
  · unfold speech
    rw [validate_ok_explicit probe hk hs hh hc1 hc2 hsup]
  · rw [fieldOf_c_buildRequest]
    have hrc : requestCodec probe s = s.c := by
      unfold requestCodec
      rw [if_pos ⟨hc1, hc2⟩]
    rw [hrc, jsOr_empty, encode_supported_codec hsup]

/-- Witness for C4 at a concrete input: the controller's own settings
(codec `"mp3"`) under a probe supporting everything. -/
theorem C4_explicit_codec_witness :
    (speech (fun _ => true) (jokeSettings "hi") =
      .ok [.post apiUrl requestContentType
        (buildRequest (fun _ => true) (jokeSettings "hi"))]) ∧
    fieldOf "c" (buildRequest (fun _ => true) (jokeSettings "hi")) = some "mp3" :=
  C4_explicit_codec (fun _ => true) (jokeSettings "hi")
    (by decide) (by decide) (by decide) (by decide) (by decide) rfl

/-! ## Decimal notation consists of unreserved characters -/

theorem digitChar_unreserved (d : Nat) : isUnreservedChar (digitChar d) = true := by
  unfold digitChar
  split <;> decide

theorem natDigits_unreserved (n : Nat) : ∀ (acc : List Char),
    (∀ c ∈ acc, isUnreservedChar c = true) →
    ∀ c ∈ natDigits n acc, isUnreservedChar c = true := by
  induction n using Nat.strong_induction_on with
  | _ n ih =>
    intro acc hacc c hc
    rw [natDigits] at hc
    by_cases h10 : n < 10
    · rw [if_pos h10] at hc
      rcases List.mem_cons.1 hc with e | m
      · rw [e]
        exact digitChar_unreserved n
      · exact hacc c m
    · rw [if_neg h10] at hc
      refine ih (n / 10) (by omega) _ ?_ c hc
      intro d hd
      rcases List.mem_cons.1 hd with e | m
      · rw [e]
        exact digitChar_unreserved _
      · exact hacc d m

theorem intDecimal_unreserved (i : Int) :
    ∀ c ∈ (intDecimal i).data, isUnreservedChar c = true := by
  unfold intDecimal
  split
  · intro c hc
    rcases List.mem_cons.1 hc with e | m
    · rw [e]
      decide
    · exact natDigits_unreserved _ [] (by simp) c m
  · exact natDigits_unreserved _ [] (by simp)

theorem encode_intDecimal (i : Int) :
    encodeURIComponent (intDecimal i) = intDecimal i :=
  encode_eq_self (intDecimal_unreserved i)

/-- C9: the falsy rate `0` is coalesced to `""` by `settings.r || ""`,
so the `r` field of the body is the empty string — in particular for
the controller's own fixed configuration, which passes `r: 0` — while a
non-zero rate `n` serializes as its decimal representation. -/
theorem C9_rate_serialization (probe : String → Bool) (s : Settings) (joke : String) :
    (s.r = 0 → fieldOf "r" (buildRequest probe s) = some "") ∧
    (s.r ≠ 0 → fieldOf "r" (buildRequest probe s) = some (intDecimal s.r)) ∧
    fieldOf "r" (buildRequest probe (jokeSettings joke)) = some "" := by
  refine ⟨fun h0 => ?_, fun hn => ?_, ?_⟩
  · rw [fieldOf_r_buildRequest,
      show rateString s.r = "" from by unfold rateString; rw [if_pos h0]]
    rfl
  · rw [fieldOf_r_buildRequest,
      show rateString s.r = intDecimal s.r from by unfold rateString; rw [if_neg hn],
      encode_intDecimal]
  · rw [fieldOf_r_buildRequest]
    rfl

/-- Witness for C9 at concrete inputs: rate `0` (and the controller's
configuration) gives an empty `r` field; rate `7` gives `"7"`. -/
theorem C9_rate_serialization_witness :
    fieldOf "r" (buildRequest (fun _ => true) ⟨"k", "t", "en-us", 0, "", "", ""⟩) = some "" ∧
    fieldOf "r" (buildRequest (fun _ => true) ⟨"k", "t", "en-us", 7, "", "", ""⟩) =
      some (intDecimal 7) ∧
    fieldOf "r" (buildRequest (fun _ => true) (jokeSettings "j")) = some "" :=
  ⟨(C9_rate_serialization (fun _ => true) ⟨"k", "t", "en-us", 0, "", "", ""⟩ "j").1 rfl,
   (C9_rate_serialization (fun _ => true) ⟨"k", "t", "en-us", 7, "", "", ""⟩ "j").2.1
     (by decide),
   (C9_rate_serialization (fun _ => true) ⟨"k", "t", "en-us", 0, "", "", ""⟩ "j").2.2⟩

/-- C5: the body built for any settings object is a single URL-encoded
string with exactly the fields key, src, hl, r, c, f, ssml in that
fixed order plus the fixed flag `b64=true`, every value
percent-encoded, and missing optional fields serialized as empty-string
values rather than omitted: `buildRequest` coincides with
`specBuildRequest`, the serialization spelled out from the spec's
words.  (The statement needs no validity hypothesis: the body is a
function of the settings alone.) -/
theorem C5_body_format (probe : String → Bool) (s : Settings) :
    buildRequest probe s = specBuildRequest probe s := by
  refine congrArg String.mk ?_
  simp only [buildRequest, specBuildRequest, specFieldValues, List.map_cons, List.map_nil,
    List.cons_append, List.nil_append, joinAmp, String.data_append, List.append_assoc,
    jsOr_empty]

/-- C6: a status-200 response whose body begins with `"ERROR"` never
mutates the playback element — the audio source is not assigned and
`play()` is not invoked — and the displayed joke text is left
unchanged, whatever the ready state and whether or not the audio
element is present. -/
theorem C6_error_body_no_mutation (rs : Nat) (body : String) (present : Bool) (d : Dom)
    (h : startsWithERROR body = true) :
    (onResponse rs 200 body present d).1.audioSrc = d.audioSrc ∧
    (onResponse rs 200 body present d).1.playCount = d.playCount ∧
    (onResponse rs 200 body present d).1.jokeText = d.jokeText := by
  unfold onResponse
  by_cases hrs : rs = 4
  · rw [if_pos hrs, if_pos rfl, if_pos h]
    exact ⟨rfl, rfl, rfl⟩
  · rw [if_neg hrs]
    exact ⟨rfl, rfl, rfl⟩

/-- Witness for C6 at a concrete input: the spec's own scenario, body
`"ERRORsomething"` with a joke on display. -/
theorem C6_error_body_no_mutation_witness :
    (onResponse 4 200 "ERRORsomething" true ⟨"Why?", none, 0, false, [], []⟩).1.audioSrc =
      (⟨"Why?", none, 0, false, [], []⟩ : Dom).audioSrc ∧
    (onResponse 4 200 "ERRORsomething" true ⟨"Why?", none, 0, false, [], []⟩).1.playCount =
      (⟨"Why?", none, 0, false, [], []⟩ : Dom).playCount ∧
    (onResponse 4 200 "ERRORsomething" true ⟨"Why?", none, 0, false, [], []⟩).1.jokeText =
      (⟨"Why?", none, 0, false, [], []⟩ : Dom).jokeText :=
  C6_error_body_no_mutation 4 "ERRORsomething" true ⟨"Why?", none, 0, false, [], []⟩
    (by decide)

/-- C7 as stated is false: `VoiceRSS.speech` is called synchronously
inside the controller's `try` block, so a *validation* failure thrown
by the Speech Client lands in the controller's `catch`, which shows the
generic failure alert and clears the displayed joke text — a speech
failure that is surfaced to the UI and re-enters the controller's error
path.  Concretely: the fetch succeeds with `"hi"`, the probe supports
no codec, so `speech` throws `codecUnsupported "mp3"`; the final state
shows the alert and has empty joke text. -/
theorem C7_counterexample :
    speech (fun _ => false) (jokeSettings "hi") = .error (.codecUnsupported "mp3") ∧
    (handleJokeButtonClick (fun _ => false) (.ok "hi")
      ⟨"", none, 0, false, [], []⟩).1.alerts = [failAlert] ∧
    (handleJokeButtonClick (fun _ => false) (.ok "hi")
      ⟨"", none, 0, false, [], []⟩).1.jokeText = "" :=
  ⟨rfl, rfl, rfl⟩

/-- C7 (amended): the *asynchronous* outcomes of the Speech Client —
success, remote error, transport failure — are handled entirely inside
its response callback and never re-enter the controller's state
machine: `onResponse` leaves the joke text, the button state and the
alerts untouched on every path.  A *synchronous* validation failure
thrown by `speech`, however, is caught by the controller's `catch`
block and surfaced exactly like a fetch failure: the generic alert is
shown, the joke text is cleared, and no network action is issued. -/
theorem C7_speech_outcome_isolation :
    (∀ (rs st : Nat) (body : String) (present : Bool) (d : Dom),
      (onResponse rs st body present d).1.jokeText = d.jokeText ∧
      (onResponse rs st body present d).1.buttonDisabled = d.buttonDisabled ∧
      (onResponse rs st body present d).1.alerts = d.alerts) ∧
    (∀ (probe : String → Bool) (joke : String) (d : Dom) (e : VError),
      speech probe (jokeSettings joke) = .error e →
      (handleJokeButtonClick probe (.ok joke) d).1.alerts = d.alerts ++ [failAlert] ∧
      (handleJokeButtonClick probe (.ok joke) d).1.jokeText = "" ∧
      (handleJokeButtonClick probe (.ok joke) d).2 = []) := by
  constructor
  · intro rs st body present d
    unfold onResponse
    repeat' split
    all_goals exact ⟨rfl, rfl, rfl⟩
  · intro probe joke d e he
    dsimp only [handleJokeButtonClick]
    rw [he]
    exact ⟨rfl, rfl, rfl⟩

/-- Witness for C7 (amended) at concrete inputs: a played response
leaves joke text, button and alerts alone; an unsupported-codec throw
surfaces the generic alert with cleared text and no POST. -/
theorem C7_speech_outcome_isolation_witness :
    ((onResponse 4 200 "x" true ⟨"j", none, 0, false, [], []⟩).1.jokeText =
        (⟨"j", none, 0, false, [], []⟩ : Dom).jokeText ∧
      (onResponse 4 200 "x" true ⟨"j", none, 0, false, [], []⟩).1.buttonDisabled =
        (⟨"j", none, 0, false, [], []⟩ : Dom).buttonDisabled ∧
      (onResponse 4 200 "x" true ⟨"j", none, 0, false, [], []⟩).1.alerts =
        (⟨"j", none, 0, false, [], []⟩ : Dom).alerts) ∧
    ((handleJokeButtonClick (fun _ => false) (.ok "hi")
        ⟨"", none, 0, false, [], []⟩).1.alerts = [] ++ [failAlert] ∧
      (handleJokeButtonClick (fun _ => false) (.ok "hi")
        ⟨"", none, 0, false, [], []⟩).1.jokeText = "" ∧
      (handleJokeButtonClick (fun _ => false) (.ok "hi")
        ⟨"", none, 0, false, [], []⟩).2 = []) :=
  ⟨C7_speech_outcome_isolation.1 4 200 "x" true ⟨"j", none, 0, false, [], []⟩,
   C7_speech_outcome_isolation.2 (fun _ => false) "hi" ⟨"", none, 0, false, [], []⟩
     (.codecUnsupported "mp3") rfl⟩

/-- C8: after every complete joke-fetch cycle — joke displayed, fetch
failed, or speech invocation threw — the button ends enabled: the
`finally` block runs on every path of `handleJokeButtonClick`. -/
theorem C8_button_reenabled (probe : String → Bool) (fetched : Except String String)
    (d : Dom) : (handleJokeButtonClick probe fetched d).1.buttonDisabled = false := by
  rcases fetched with msg | joke
  · rfl
  · dsimp only [handleJokeButtonClick]
    cases h : speech probe (jokeSettings joke) <;> rfl

/-- C10 as stated is false for the same reason as C2: with a required
field also missing, the missing-field error is thrown before the codec
switch is reached.  Concretely: empty key and codec `"xyz"` (outside
the enumeration) under an all-supporting probe throw `keyUndefined`,
not the unsupported-codec error. -/
theorem C10_counterexample :
    (⟨"", "t", "en-us", 0, "xyz", "", ""⟩ : Settings).c ≠ "" ∧
    jsToLower "xyz" ≠ "auto" ∧ jsToLower "xyz" ≠ "mp3" ∧ jsToLower "xyz" ≠ "wav" ∧
    jsToLower "xyz" ≠ "aac" ∧ jsToLower "xyz" ≠ "ogg" ∧ jsToLower "xyz" ≠ "caf" ∧
    speech (fun _ => true) ⟨"", "t", "en-us", 0, "xyz", "", ""⟩ =
      .error .keyUndefined ∧
    VError.isUnsupportedCodec .keyUndefined = false :=
  ⟨by decide, by decide, by decide, by decide, by decide, by decide, by decide, rfl, rfl⟩

/-- C10 (amended: the required fields key, src, hl are additionally
non-empty): an explicit codec that case-insensitively is neither
`"auto"` nor one of mp3, wav, aac, ogg, caf always fails validation
with the unsupported-codec error — for *every* probe, since the
`switch` falls to its `default` branch without consulting it — so no
such codec ever reaches request construction. -/
theorem C10_unknown_codec_rejected (probe : String → Bool) (s : Settings)
    (hk : s.key ≠ "") (hs : s.src ≠ "") (hh : s.hl ≠ "")
    (hc1 : s.c ≠ "") (hne : jsToLower s.c ≠ "auto")
    (h1 : jsToLower s.c ≠ "mp3") (h2 : jsToLower s.c ≠ "wav")
    (h3 : jsToLower s.c ≠ "aac") (h4 : jsToLower s.c ≠ "ogg")
    (h5 : jsToLower s.c ≠ "caf") :
    speech probe s = .error (.codecUnsupported s.c) := by
  refine speech_error_unsupported probe hk hs hh hc1 hne ?_
  unfold codecSupported
  split
  · exact absurd (by assumption) h1
  · exact absurd (by assumption) h2
  · exact absurd (by assumption) h3
  · exact absurd (by assumption) h4
  · exact absurd (by assumption) h5
  · rfl

/-- Witness for C10 (amended) at a concrete input: codec `"flac"` under
an all-supporting probe. -/
theorem C10_unknown_codec_rejected_witness :
    speech (fun _ => true) ⟨"k", "t", "en-us", 0, "flac", "", ""⟩ =
      .error (.codecUnsupported "flac") :=
  C10_unknown_codec_rejected (fun _ => true) ⟨"k", "t", "en-us", 0, "flac", "", ""⟩
    (by decide) (by decide) (by decide) (by decide) (by decide) (by decide)
    (by decide) (by decide) (by decide) (by decide)

end JokeTeller
